import Mathlib

/-!
Shallow embedding of the gpuocean simulation time-stepping core: the
`KP07.step` driver (sub-step loop, Euler and RK2 buffer discipline,
initial boundary-condition pass), the `Simulator.update_wind_stress`
temporal interpolator (bracketing search, reload suppression, fraction
computation), `Simulator.copyState`, and the construction-time elevation
clamping in `KP07.__init__`.

Device buffers hold values of an abstract type `V`; the (external) compute
kernel and boundary-condition kernel are abstract functions gathered in a
`KernelModel`.  GPU-observable effects (kernel launches, boundary-condition
applications, buffer role swaps, forcing-snapshot uploads) are recorded as
an explicit operation list.  Times use exact rationals; `pyInt` models
the truncating `int()` conversion of Python.
-/

namespace GpuOcean

/-- Observable device operations issued by the stepping core. -/
inductive Op where
  | kernelLaunch (stage readSet writeSet : ℕ)
  | bcApply (target : ℕ)
  | swapBuffers
  | uploadCurrent
  | uploadNext
  deriving DecidableEq, Repr

/-- Abstract model of the external compute kernel (`swe_2D`) and the
boundary-condition kernel (`bc_kernel.boundaryCondition`): `eulerK` is the
single Euler stage, `rkStage0`/`rkStage1` the two RK2 stages (stage 1 also
sees the content of its write target, buffer set 0), `bc` the in-place
boundary-condition application.  Stage functions take `local_dt` and the
wind-stress interpolation fraction. -/
structure KernelModel (V : Type) where
  eulerK : ℚ → ℚ → V → V
  rkStage0 : ℚ → ℚ → V → V
  rkStage1 : ℚ → ℚ → V → V → V
  bc : V → V

/-- Host-visible simulator state: clock `t`, iteration counter, the two
buffer sets (each set abstracts its three conserved fields into one `V`
value), and the cached wind-stress bracketing timestamps
(`wind_stress_timestamps`; `none` before the first refresh). -/
structure SimState (V : Type) where
  t : ℚ
  num_iterations : ℕ
  set0 : V
  set1 : V
  windCache : Option (ℚ × ℚ)
  deriving DecidableEq, Repr

/-- The `int()` conversion of Python applied to a rational: truncation toward zero. -/
def pyInt (q : ℚ) : ℤ := if 0 ≤ q then ⌊q⌋ else ⌈q⌉

/-- `np.searchsorted(ts, v)` (side `left`) on a sorted list: the first
index whose element is `≥ v`, or `ts.length` if none. -/
def searchsorted (ts : List ℚ) (v : ℚ) : ℕ :=
  match ts with
  | [] => 0
  | x :: rest => if v ≤ x then 0 else searchsorted rest v + 1

/-- `t0_index = max(0, np.searchsorted(self.wind_stress.t, self.t)-1)`. -/
def t0_index (ts : List ℚ) (t : ℚ) : ℤ := max 0 ((searchsorted ts t : ℤ) - 1)

/-- `t1_index = min(t_max_index, np.searchsorted(self.wind_stress.t, self.t))`. -/
def t1_index (ts : List ℚ) (t : ℚ) : ℤ :=
  min ((ts.length : ℤ) - 1) (searchsorted ts t)

/-- The bracketing timestamps `(new_t0, new_t1) = (ts[t0_index], ts[t1_index])`. -/
def windBracket (ts : List ℚ) (t : ℚ) : ℚ × ℚ :=
  (ts.getD (t0_index ts t).toNat 0, ts.getD (t1_index ts t).toNat 0)

/-- `max(0.0, min(1.0, (t-t0) / max(1.0e-10, t1-t0)))`. -/
def interpFraction (t t0 t1 : ℚ) : ℚ :=
  max 0 (min 1 ((t - t0) / max (1 / 10 ^ 10) (t1 - t0)))

/-- The interpolation fraction `update_wind_stress` returns at time `t`. -/
def windFraction (ts : List ℚ) (t : ℚ) : ℚ :=
  interpFraction t (windBracket ts t).1 (windBracket ts t).2

/-- `Simulator.update_wind_stress`: recompute the bracket at the current
clock, upload the "current" (resp. "next") snapshot exactly when that
timestamp of that endpoint differs from the cached one (a missing cache entry
counts as different), cache the new timestamps, and return the
interpolation fraction together with the issued uploads. -/
def update_wind_stress {V : Type} (ts : List ℚ) (s : SimState V) :
    ℚ × SimState V × List Op :=
  let new_t0 := (windBracket ts s.t).1
  let new_t1 := (windBracket ts s.t).2
  let old_t0 : Option ℚ := s.windCache.map Prod.fst
  let old_t1 : Option ℚ := s.windCache.map Prod.snd
  let s1 := { s with windCache := some (new_t0, new_t1) }
  let ops0 : List Op := if some new_t0 ≠ old_t0 then [Op.uploadCurrent] else []
  let ops1 : List Op := if some new_t1 ≠ old_t1 then [Op.uploadNext] else []
  (windFraction ts s.t, s1, ops0 ++ ops1)

/-- One sub-step body of `KP07.step` (the part inside the loop after the
early-termination check).  Euler: one kernel launch reading set 0 and
writing set 1, then `swap`, then boundary conditions on the new set 0.
RK2: stage 0 reads set 0 and writes set 1, boundary conditions on set 1,
stage 1 reads set 1 and writes set 0, boundary conditions on set 0; no
swap. -/
def substep {V : Type} (use_rk2 : Bool) (km : KernelModel V)
    (local_dt frac : ℚ) (s : SimState V) : SimState V × List Op :=
  if use_rk2 then
    let pred := km.bc (km.rkStage0 local_dt frac s.set0)
    let corr := km.bc (km.rkStage1 local_dt frac pred s.set0)
    ({ s with set0 := corr, set1 := pred },
     [Op.kernelLaunch 0 0 1, Op.bcApply 1, Op.kernelLaunch 1 1 0, Op.bcApply 0])
  else
    let fwd := km.eulerK local_dt frac s.set0
    ({ s with set0 := km.bc fwd, set1 := s.set0 },
     [Op.kernelLaunch 0 0 1, Op.swapBuffers, Op.bcApply 0])

/-- `n = int(t_end / self.dt + 1)`. -/
def nSubsteps (dt t_end : ℚ) : ℤ := pyInt (t_end / dt + 1)

/-- One executed loop iteration of `KP07.step`: the wind-stress refresh
(whose fraction feeds the kernel), the sub-step proper, then the clock
advance by `local_dt` and the iteration-counter increment. -/
def stepOnce {V : Type} (use_rk2 : Bool) (km : KernelModel V) (ts : List ℚ)
    (local_dt : ℚ) (s : SimState V) : SimState V × List Op :=
  let r := update_wind_stress ts s
  let r2 := substep use_rk2 km local_dt r.1 r.2.1
  ({ r2.1 with t := r2.1.t + local_dt,
               num_iterations := r2.1.num_iterations + 1 },
   r.2.2 ++ r2.2)

/-- The sub-step loop of `KP07.step`: at index `i`, compute
`local_dt = min(dt, t_end - i*dt)`, refresh the wind stress, break when
`local_dt ≤ 0` (the refresh has already run by then, so its cache update
and uploads survive the break), otherwise run one sub-step, advance the
clock by `local_dt` and increment the iteration counter. -/
def stepLoop {V : Type} (use_rk2 : Bool) (km : KernelModel V) (ts : List ℚ)
    (dt t_end : ℚ) : ℕ → ℕ → SimState V → SimState V × List Op
  | 0, _, s => (s, [])
  | fuel + 1, i, s =>
    let local_dt := min dt (t_end - (i : ℚ) * dt)
    if local_dt ≤ 0 then
      ((update_wind_stress ts s).2.1, (update_wind_stress ts s).2.2)
    else
      let r2 := stepOnce use_rk2 km ts local_dt s
      let r3 := stepLoop use_rk2 km ts dt t_end fuel (i + 1) r2.1
      (r3.1, r2.2 ++ r3.2)

/-- The pre-loop state of `KP07.step`: boundary conditions are applied to
the current buffer set exactly when the clock equals 0. -/
def initState {V : Type} (km : KernelModel V) (s : SimState V) : SimState V :=
  if s.t = 0 then { s with set0 := km.bc s.set0 } else s

/-- `KP07.step(t_end)`: apply boundary conditions to set 0 once if the
clock equals 0, then run the sub-step loop for `n` candidate iterations. -/
def step {V : Type} (use_rk2 : Bool) (km : KernelModel V) (ts : List ℚ)
    (dt t_end : ℚ) (s : SimState V) : SimState V × List Op :=
  let init : SimState V × List Op :=
    if s.t = 0 then (initState km s, [Op.bcApply 0]) else (initState km s, [])
  let r := stepLoop use_rk2 km ts dt t_end (nSubsteps dt t_end).toNat 0 init.1
  (r.1, init.2 ++ r.2)

/-- Number of loop iterations whose `local_dt` is strictly positive before
the early-termination break, starting from index `i` with `fuel`
remaining candidate iterations. -/
def executedCount (dt t_end : ℚ) : ℕ → ℕ → ℕ
  | 0, _ => 0
  | fuel + 1, i =>
    if min dt (t_end - (i : ℚ) * dt) ≤ 0 then 0
    else executedCount dt t_end fuel (i + 1) + 1

/-- Whether a boundary-condition application occurs before the first
compute-kernel launch in an operation list (uploads and swaps skipped). -/
def bcBeforeKernel : List Op → Bool
  | [] => false
  | Op.bcApply _ :: _ => true
  | Op.kernelLaunch _ _ _ :: _ => false
  | _ :: rest => bcBeforeKernel rest

/-- The state fields `Simulator.copyState` reads or writes: the concrete
class identity (`type(self)`), grid dimensions, the six conserved-field
device buffers, and the wind-stress object (of abstract type `W`). -/
structure CopySim (V W : Type) where
  variantTag : ℕ
  nx : ℕ
  ny : ℕ
  h0 : V
  hu0 : V
  hv0 : V
  h1 : V
  hu1 : V
  hv1 : V
  wind_stress : W
  deriving DecidableEq

/-- `Simulator.copyState(otherSim)`: assert same concrete class, assert
equal `(ny, nx)`, then copy all six buffers and take the wind-stress
reference of the other simulator.  Both assertions fire before any buffer is
touched, so a failure leaves the state unmodified (pure `error`). -/
def copyState {V W : Type} (self other : CopySim V W) :
    Except String (CopySim V W) :=
  if other.variantTag ≠ self.variantTag then
    Except.error "simulator class mismatch"
  else if ¬ ((self.ny, self.nx) = (other.ny, other.nx)) then
    Except.error "computational domain mismatch"
  else
    Except.ok { self with
      h0 := other.h0, hu0 := other.hu0, hv0 := other.hv0,
      h1 := other.h1, hu1 := other.hu1, hv1 := other.hv1,
      wind_stress := other.wind_stress }

/-- `Simulator.download`: the current buffer set (set 0). -/
def download {V W : Type} (sim : CopySim V W) : V × V × V :=
  (sim.h0, sim.hu0, sim.hv0)

/-- Construction-time elevation adjustment in `KP07.__init__`:
`eta0 = np.maximum(eta0, -Hm)` with `Hm` the cell-centered bathymetry. -/
def adjustEta (eta0 Hm : ℕ → ℕ → ℚ) (i j : ℕ) : ℚ :=
  max (eta0 i j) (-(Hm i j))

/-- A concrete kernel model on `ℕ` whose stages and boundary-condition
application are injectively distinguishable, used to evaluate the step
driver on concrete inputs. -/
def natKM : KernelModel ℕ where
  eulerK := fun _ _ v => v + 1
  rkStage0 := fun _ _ v => v + 10
  rkStage1 := fun _ _ v w => v + w + 100
  bc := fun v => v + 1000

/-! ### Basic facts about the wind-stress refresh -/

@[simp]
theorem update_wind_stress_frac {V : Type} (ts : List ℚ) (s : SimState V) :
    (update_wind_stress ts s).1 = windFraction ts s.t := rfl

@[simp]
theorem update_wind_stress_state {V : Type} (ts : List ℚ) (s : SimState V) :
    (update_wind_stress ts s).2.1 = { s with windCache := some (windBracket ts s.t) } := rfl

theorem update_wind_stress_ops {V : Type} (ts : List ℚ) (s : SimState V) :
    (update_wind_stress ts s).2.2 =
      (if some (windBracket ts s.t).1 ≠ s.windCache.map Prod.fst
        then [Op.uploadCurrent] else []) ++
      (if some (windBracket ts s.t).2 ≠ s.windCache.map Prod.snd
        then [Op.uploadNext] else []) := rfl

theorem update_wind_stress_ops_upload {V : Type} (ts : List ℚ) (s : SimState V) :
    ∀ op ∈ (update_wind_stress ts s).2.2,
      op = Op.uploadCurrent ∨ op = Op.uploadNext := by
  intro op hop
  rw [update_wind_stress_ops] at hop
  rcases List.mem_append.mp hop with h | h <;> split_ifs at h <;> simp_all

/-! ### Basic facts about one sub-step -/

@[simp]
theorem substep_t {V : Type} (u : Bool) (km : KernelModel V) (d f : ℚ)
    (s : SimState V) : (substep u km d f s).1.t = s.t := by
  cases u <;> rfl

@[simp]
theorem substep_num_iterations {V : Type} (u : Bool) (km : KernelModel V)
    (d f : ℚ) (s : SimState V) :
    (substep u km d f s).1.num_iterations = s.num_iterations := by
  cases u <;> rfl

theorem substep_ops_head {V : Type} (u : Bool) (km : KernelModel V) (d f : ℚ)
    (s : SimState V) :
    ∃ rest, (substep u km d f s).2 = Op.kernelLaunch 0 0 1 :: rest := by
  cases u <;> exact ⟨_, rfl⟩

theorem substep_ops_no_upload {V : Type} (u : Bool) (km : KernelModel V)
    (d f : ℚ) (s : SimState V) :
    ∀ op ∈ (substep u km d f s).2,
      op ≠ Op.uploadCurrent ∧ op ≠ Op.uploadNext := by
  cases u <;> · intro op hop; fin_cases hop <;> simp

/-! ### Basic facts about one executed loop iteration and the loop -/

@[simp]
theorem stepOnce_t {V : Type} (u : Bool) (km : KernelModel V) (ts : List ℚ)
    (d : ℚ) (s : SimState V) : (stepOnce u km ts d s).1.t = s.t + d := by
  simp [stepOnce]

@[simp]
theorem stepOnce_num_iterations {V : Type} (u : Bool) (km : KernelModel V)
    (ts : List ℚ) (d : ℚ) (s : SimState V) :
    (stepOnce u km ts d s).1.num_iterations = s.num_iterations + 1 := by
  simp [stepOnce]

theorem stepOnce_ops {V : Type} (u : Bool) (km : KernelModel V) (ts : List ℚ)
    (d : ℚ) (s : SimState V) :
    (stepOnce u km ts d s).2 =
      (update_wind_stress ts s).2.2 ++
        (substep u km d (windFraction ts s.t)
          { s with windCache := some (windBracket ts s.t) }).2 := rfl

theorem kernel_mem_stepOnce {V : Type} (u : Bool) (km : KernelModel V)
    (ts : List ℚ) (d : ℚ) (s : SimState V) :
    Op.kernelLaunch 0 0 1 ∈ (stepOnce u km ts d s).2 := by
  rw [stepOnce_ops]
  apply List.mem_append_right
  obtain ⟨rest, hrest⟩ := substep_ops_head u km d (windFraction ts s.t)
    { s with windCache := some (windBracket ts s.t) }
  rw [hrest]
  exact List.mem_cons_self _ _

theorem stepLoop_zero {V : Type} (u : Bool) (km : KernelModel V) (ts : List ℚ)
    (dt t_end : ℚ) (i : ℕ) (s : SimState V) :
    stepLoop u km ts dt t_end 0 i s = (s, []) := rfl

theorem stepLoop_succ_break {V : Type} (u : Bool) (km : KernelModel V)
    (ts : List ℚ) (dt t_end : ℚ) (fuel i : ℕ) (s : SimState V)
    (h : min dt (t_end - (i : ℚ) * dt) ≤ 0) :
    stepLoop u km ts dt t_end (fuel + 1) i s =
      ((update_wind_stress ts s).2.1, (update_wind_stress ts s).2.2) := by
  simp only [stepLoop, if_pos h]

theorem stepLoop_succ_go {V : Type} (u : Bool) (km : KernelModel V)
    (ts : List ℚ) (dt t_end : ℚ) (fuel i : ℕ) (s : SimState V)
    (h : ¬ min dt (t_end - (i : ℚ) * dt) ≤ 0) :
    stepLoop u km ts dt t_end (fuel + 1) i s =
      ((stepLoop u km ts dt t_end fuel (i + 1)
          (stepOnce u km ts (min dt (t_end - (i : ℚ) * dt)) s).1).1,
       (stepOnce u km ts (min dt (t_end - (i : ℚ) * dt)) s).2 ++
        (stepLoop u km ts dt t_end fuel (i + 1)
          (stepOnce u km ts (min dt (t_end - (i : ℚ) * dt)) s).1).2) := by
  simp only [stepLoop, if_neg h]

theorem stepLoop_t_mono {V : Type} (u : Bool) (km : KernelModel V)
    (ts : List ℚ) (dt t_end : ℚ) :
    ∀ (fuel i : ℕ) (s : SimState V),
      s.t ≤ (stepLoop u km ts dt t_end fuel i s).1.t := by
  intro fuel
  induction fuel with
  | zero => intro i s; exact le_refl _
  | succ n ih =>
    intro i s
    by_cases h : min dt (t_end - (i : ℚ) * dt) ≤ 0
    · rw [stepLoop_succ_break u km ts dt t_end n i s h]
      simp
    · rw [stepLoop_succ_go u km ts dt t_end n i s h]
      have h0 : 0 < min dt (t_end - (i : ℚ) * dt) := not_le.mp h
      calc s.t ≤ s.t + min dt (t_end - (i : ℚ) * dt) := by linarith
        _ = (stepOnce u km ts (min dt (t_end - (i : ℚ) * dt)) s).1.t := by simp
        _ ≤ _ := ih (i + 1) _

theorem stepLoop_t_upper {V : Type} (u : Bool) (km : KernelModel V)
    (ts : List ℚ) (dt t_end : ℚ) (hdt : 0 < dt) :
    ∀ (fuel i : ℕ) (s : SimState V),
      (stepLoop u km ts dt t_end fuel i s).1.t ≤
        s.t + max 0 (t_end - (i : ℚ) * dt) := by
  intro fuel
  induction fuel with
  | zero =>
    intro i s
    have := le_max_left (0 : ℚ) (t_end - (i : ℚ) * dt)
    simp only [stepLoop_zero]
    linarith
  | succ n ih =>
    intro i s
    by_cases h : min dt (t_end - (i : ℚ) * dt) ≤ 0
    · rw [stepLoop_succ_break u km ts dt t_end n i s h]
      have := le_max_left (0 : ℚ) (t_end - (i : ℚ) * dt)
      simp only [update_wind_stress_state]
      linarith
    · rw [stepLoop_succ_go u km ts dt t_end n i s h]
      have h0 : 0 < min dt (t_end - (i : ℚ) * dt) := not_le.mp h
      have hub := ih (i + 1) (stepOnce u km ts (min dt (t_end - (i : ℚ) * dt)) s).1
      have hst : (stepOnce u km ts (min dt (t_end - (i : ℚ) * dt)) s).1.t =
          s.t + min dt (t_end - (i : ℚ) * dt) := by simp
      rw [hst] at hub
      refine le_trans hub ?_
      have hcast : ((i + 1 : ℕ) : ℚ) = (i : ℚ) + 1 := by push_cast; ring
      have hmin1 : min dt (t_end - (i : ℚ) * dt) ≤ dt := min_le_left _ _
      have hmin2 : min dt (t_end - (i : ℚ) * dt) ≤ t_end - (i : ℚ) * dt :=
        min_le_right _ _
      rcases le_or_lt (t_end - ((i : ℚ) + 1) * dt) 0 with hnext | hnext
      · rw [hcast, max_eq_left hnext]
        have : (0 : ℚ) < t_end - (i : ℚ) * dt := lt_of_lt_of_le h0 hmin2
        rw [max_eq_right this.le]
        linarith
      · rw [hcast, max_eq_right hnext.le]
        have hfull : t_end - (i : ℚ) * dt ≥ dt := by linarith
        have : min dt (t_end - (i : ℚ) * dt) = dt := min_eq_left hfull
        have hpos0 : (0 : ℚ) ≤ t_end - (i : ℚ) * dt := by linarith
        rw [max_eq_right hpos0]
        linarith

theorem stepLoop_num_iterations {V : Type} (u : Bool) (km : KernelModel V)
    (ts : List ℚ) (dt t_end : ℚ) :
    ∀ (fuel i : ℕ) (s : SimState V),
      (stepLoop u km ts dt t_end fuel i s).1.num_iterations =
        s.num_iterations + executedCount dt t_end fuel i := by
  intro fuel
  induction fuel with
  | zero => intro i s; simp [stepLoop_zero, executedCount]
  | succ n ih =>
    intro i s
    have he : executedCount dt t_end (n + 1) i =
        if min dt (t_end - (i : ℚ) * dt) ≤ 0 then 0
        else executedCount dt t_end n (i + 1) + 1 := rfl
    by_cases h : min dt (t_end - (i : ℚ) * dt) ≤ 0
    · rw [stepLoop_succ_break u km ts dt t_end n i s h, he, if_pos h]
      simp
    · rw [stepLoop_succ_go u km ts dt t_end n i s h, he, if_neg h]
      dsimp only
      have hrec := ih (i + 1) (stepOnce u km ts (min dt (t_end - (i : ℚ) * dt)) s).1
      have hone := stepOnce_num_iterations u km ts (min dt (t_end - (i : ℚ) * dt)) s
      omega

theorem stepLoop_buffers_of_break {V : Type} (u : Bool) (km : KernelModel V)
    (ts : List ℚ) (dt t_end : ℚ) (fuel : ℕ) (s : SimState V)
    (h : min dt (t_end - (0 : ℚ) * dt) ≤ 0) (hfuel : fuel ≤ 1) :
    (stepLoop u km ts dt t_end fuel 0 s).1.t = s.t ∧
    (stepLoop u km ts dt t_end fuel 0 s).1.num_iterations = s.num_iterations ∧
    (stepLoop u km ts dt t_end fuel 0 s).1.set0 = s.set0 ∧
    (stepLoop u km ts dt t_end fuel 0 s).1.set1 = s.set1 ∧
    ∀ op ∈ (stepLoop u km ts dt t_end fuel 0 s).2,
      op = Op.uploadCurrent ∨ op = Op.uploadNext := by
  interval_cases fuel
  · simp [stepLoop_zero]
  · have h0 : min dt (t_end - ((0 : ℕ) : ℚ) * dt) ≤ 0 := by
      simpa using h
    rw [stepLoop_succ_break u km ts dt t_end 0 0 s h0]
    refine ⟨rfl, rfl, rfl, rfl, ?_⟩
    exact update_wind_stress_ops_upload ts s

theorem bcBeforeKernel_uploads_append (l rest : List Op)
    (h : ∀ op ∈ l, op = Op.uploadCurrent ∨ op = Op.uploadNext) :
    bcBeforeKernel (l ++ rest) = bcBeforeKernel rest := by
  induction l with
  | nil => rfl
  | cons a l ih =>
    have ha := h a (List.mem_cons_self a l)
    have hl : ∀ op ∈ l, op = Op.uploadCurrent ∨ op = Op.uploadNext :=
      fun op hop => h op (List.mem_cons_of_mem a hop)
    rcases ha with rfl | rfl
    · simpa [bcBeforeKernel] using ih hl
    · simpa [bcBeforeKernel] using ih hl

theorem bcBeforeKernel_stepLoop {V : Type} (u : Bool) (km : KernelModel V)
    (ts : List ℚ) (dt t_end : ℚ) :
    ∀ (fuel i : ℕ) (s : SimState V),
      bcBeforeKernel (stepLoop u km ts dt t_end fuel i s).2 = false := by
  intro fuel
  induction fuel with
  | zero => intro i s; rfl
  | succ n ih =>
    intro i s
    by_cases h : min dt (t_end - (i : ℚ) * dt) ≤ 0
    · rw [stepLoop_succ_break u km ts dt t_end n i s h]
      have := bcBeforeKernel_uploads_append (update_wind_stress ts s).2.2 []
        (update_wind_stress_ops_upload ts s)
      simpa using this
    · rw [stepLoop_succ_go u km ts dt t_end n i s h]
      show bcBeforeKernel
        ((stepOnce u km ts (min dt (t_end - (i : ℚ) * dt)) s).2 ++ _) = false
      have hops : (stepOnce u km ts (min dt (t_end - (i : ℚ) * dt)) s).2 =
          (update_wind_stress ts s).2.2 ++
            (substep u km (min dt (t_end - (i : ℚ) * dt))
              (windFraction ts s.t)
              { s with windCache := some (windBracket ts s.t) }).2 := rfl
      rw [hops, List.append_assoc,
        bcBeforeKernel_uploads_append _ _ (update_wind_stress_ops_upload ts s)]
      obtain ⟨rest, hrest⟩ := substep_ops_head u km
        (min dt (t_end - (i : ℚ) * dt)) (windFraction ts s.t)
        { s with windCache := some (windBracket ts s.t) }
      rw [hrest]
      rfl

@[simp]
theorem initState_t {V : Type} (km : KernelModel V) (s : SimState V) :
    (initState km s).t = s.t := by
  unfold initState
  split <;> rfl

@[simp]
theorem initState_num_iterations {V : Type} (km : KernelModel V)
    (s : SimState V) : (initState km s).num_iterations = s.num_iterations := by
  unfold initState
  split <;> rfl

theorem step_eq {V : Type} (u : Bool) (km : KernelModel V) (ts : List ℚ)
    (dt t_end : ℚ) (s : SimState V) :
    step u km ts dt t_end s =
      ((stepLoop u km ts dt t_end (nSubsteps dt t_end).toNat 0
          (initState km s)).1,
       (if s.t = 0 then [Op.bcApply 0] else []) ++
        (stepLoop u km ts dt t_end (nSubsteps dt t_end).toNat 0
          (initState km s)).2) := by
  by_cases h : s.t = 0 <;> simp [step, h]

theorem nSubsteps_toNat_le_one (dt t_end : ℚ) (hdt : 0 < dt)
    (hte : t_end ≤ 0) : (nSubsteps dt t_end).toNat ≤ 1 := by
  have hdiv : t_end / dt ≤ 0 := div_nonpos_of_nonpos_of_nonneg hte hdt.le
  have hq : t_end / dt + 1 ≤ 1 := by linarith
  have hz : nSubsteps dt t_end ≤ 1 := by
    unfold nSubsteps pyInt
    split
    · calc ⌊t_end / dt + 1⌋ ≤ ⌊(1 : ℚ)⌋ := Int.floor_le_floor hq
        _ = 1 := Int.floor_one
    · have hneg : t_end / dt + 1 < 0 := lt_of_not_le (by assumption)
      calc ⌈t_end / dt + 1⌉ ≤ (0 : ℤ) := Int.ceil_le.mpr (by push_cast; linarith)
        _ ≤ 1 := by norm_num
  omega

/-! ### The bracketing search on sorted series -/

theorem searchsorted_eq_length (ts : List ℚ) (t : ℚ)
    (h : ∀ x ∈ ts, x < t) : searchsorted ts t = ts.length := by
  induction ts with
  | nil => rfl
  | cons a rest ih =>
    have ha : ¬ t ≤ a := not_le.mpr (h a (List.mem_cons_self a rest))
    simp only [searchsorted, if_neg ha, List.length_cons]
    exact congrArg (· + 1) (ih fun x hx => h x (List.mem_cons_of_mem a hx))

theorem le_getLast_of_sorted (ts : List ℚ) (hs : List.Sorted (· ≤ ·) ts)
    (hne : ts ≠ []) : ∀ x ∈ ts, x ≤ ts.getLast hne := by
  induction ts with
  | nil => simp
  | cons a rest ih =>
    rcases List.sorted_cons.mp hs with ⟨hall, hrest⟩
    intro x hx
    cases rest with
    | nil =>
      rcases List.mem_singleton.mp hx with rfl
      exact le_refl _
    | cons b rs =>
      rw [List.getLast_cons (List.cons_ne_nil b rs)]
      rcases List.mem_cons.mp hx with rfl | hx2
      · exact hall _ (List.getLast_mem (List.cons_ne_nil b rs))
      · exact ih hrest (List.cons_ne_nil b rs) x hx2

theorem searchsorted_eq_zero_of_lt_head (a : ℚ) (rest : List ℚ) (t : ℚ)
    (h : t < a) : searchsorted (a :: rest) t = 0 := by
  simp [searchsorted, h.le]

/-! ### Claim theorems -/

/-- C1: buffer-role discipline of one sub-step.  The Euler path launches
one kernel reading set 0 and writing set 1, then swaps roles with no data
copy, then applies boundary conditions; the RK2 path launches stage 0
reading set 0 and writing set 1, then stage 1 reading set 1 and writing
set 0, with boundary conditions after each write and no role swap.  After
either sub-step, buffer set 0 holds the boundary-condition-applied result
of the sub-step and set 1 holds only scratch data (the pre-step state for
Euler, the boundary-conditioned predictor for RK2). -/
theorem substep_buffer_role_discipline {V : Type} (km : KernelModel V)
    (d f : ℚ) (s : SimState V) :
    (substep false km d f s).2 =
      [Op.kernelLaunch 0 0 1, Op.swapBuffers, Op.bcApply 0] ∧
    (substep true km d f s).2 =
      [Op.kernelLaunch 0 0 1, Op.bcApply 1, Op.kernelLaunch 1 1 0, Op.bcApply 0] ∧
    Op.swapBuffers ∉ (substep true km d f s).2 ∧
    (substep false km d f s).1.set0 = km.bc (km.eulerK d f s.set0) ∧
    (substep false km d f s).1.set1 = s.set0 ∧
    (substep true km d f s).1.set0 =
      km.bc (km.rkStage1 d f (km.bc (km.rkStage0 d f s.set0)) s.set0) ∧
    (substep true km d f s).1.set1 = km.bc (km.rkStage0 d f s.set0) := by
  refine ⟨rfl, rfl, ?_, rfl, rfl, rfl, rfl⟩
  simp [substep]

/-- C4 counterexample: on the series `[0, 10, 20]` a query at `t = 25`
does produce the degenerate bracket `(20, 20)`, but the fraction is
`clamp((25 - 20)/1e-10, 0, 1) = 1`, not `0` as the claim states. -/
theorem degenerate_fraction_counterexample :
    windBracket [0, 10, 20] 25 = (20, 20) ∧
    windFraction [0, 10, 20] 25 = 1 ∧ (1 : ℚ) ≠ 0 := by
  have hb : windBracket [0, 10, 20] 25 = (20, 20) := by decide
  refine ⟨hb, ?_, by norm_num⟩
  unfold windFraction
  rw [hb]
  norm_num [interpFraction, max_def, min_def]

/-- C4 amended: on a degenerate bracket (`t1 = t0`) the epsilon floor
makes the fraction `clamp((t - t0) · 10^10, 0, 1)`; this is `0` exactly
when the query time is at or before the bracket timestamp, and saturates
to `1` once the query time exceeds it by at least `1e-10` — in particular
a query beyond the last sample yields fraction `1`, not `0`. -/
theorem degenerate_fraction (ts : List ℚ) (t : ℚ)
    (hdeg : (windBracket ts t).2 = (windBracket ts t).1) :
    windFraction ts t =
      max 0 (min 1 ((t - (windBracket ts t).1) * 10 ^ 10)) ∧
    (t ≤ (windBracket ts t).1 → windFraction ts t = 0) := by
  have heps : max ((1 : ℚ) / 10 ^ 10) ((windBracket ts t).2 - (windBracket ts t).1)
      = 1 / 10 ^ 10 := by
    rw [hdeg, sub_self]
    exact max_eq_left (by norm_num)
  have hmain : windFraction ts t =
      max 0 (min 1 ((t - (windBracket ts t).1) * 10 ^ 10)) := by
    unfold windFraction interpFraction
    rw [heps, div_eq_mul_inv]
    norm_num
  refine ⟨hmain, fun hle => ?_⟩
  rw [hmain]
  have h1 : (t - (windBracket ts t).1) * 10 ^ 10 ≤ 0 :=
    mul_nonpos_of_nonpos_of_nonneg (by linarith) (by norm_num)
  have h2 : min 1 ((t - (windBracket ts t).1) * 10 ^ 10) ≤ 0 :=
    le_trans (min_le_right _ _) h1
  exact max_eq_left h2

/-- C4 witness: the amended statement at the concrete degenerate input
`ts = [0, 10, 20]`, `t = 25`. -/
theorem degenerate_fraction_witness :
    windFraction [0, 10, 20] 25 =
      max 0 (min 1 ((25 - (windBracket [0, 10, 20] 25).1) * 10 ^ 10)) ∧
    ((25 : ℚ) ≤ (windBracket [0, 10, 20] 25).1 → windFraction [0, 10, 20] 25 = 0) :=
  degenerate_fraction [0, 10, 20] 25 (by decide)

/-- C5: the bracketing search computes
`t0_index = max(0, searchsorted(ts, t) - 1)` and
`t1_index = min(len - 1, searchsorted(ts, t))`; for a non-decreasing
series, a query before the first sample collapses both indices to `0` and
a query after the last sample collapses both to the last index; on
`[0, 10, 20]` a query at `t = 5` gives bracket `(0, 10)` with fraction
`1/2` and a query at `t = -5` gives bracket `(0, 0)` with fraction `0`. -/
theorem bracketing_search (ts : List ℚ) (t : ℚ) (hne : ts ≠ [])
    (hsorted : List.Sorted (· ≤ ·) ts) :
    (t0_index ts t = max 0 ((searchsorted ts t : ℤ) - 1) ∧
     t1_index ts t = min ((ts.length : ℤ) - 1) (searchsorted ts t)) ∧
    (∀ h0 : 0 < ts.length, t < ts.get ⟨0, h0⟩ →
       t0_index ts t = 0 ∧ t1_index ts t = 0) ∧
    (ts.getLast hne < t →
       t0_index ts t = (ts.length : ℤ) - 1 ∧
       t1_index ts t = (ts.length : ℤ) - 1) ∧
    (windBracket [0, 10, 20] 5 = (0, 10) ∧ windFraction [0, 10, 20] 5 = 1 / 2) ∧
    (windBracket [0, 10, 20] (-5) = (0, 0) ∧ windFraction [0, 10, 20] (-5) = 0) := by
  have hlen : 0 < ts.length := List.length_pos.mpr hne
  have hb5 : windBracket [0, 10, 20] 5 = (0, 10) := by decide
  have hbm5 : windBracket [0, 10, 20] (-5) = (0, 0) := by decide
  refine ⟨⟨rfl, rfl⟩, ?_, ?_,
    ⟨hb5, by unfold windFraction; rw [hb5]; norm_num [interpFraction, max_def, min_def]⟩,
    ⟨hbm5, by unfold windFraction; rw [hbm5]; norm_num [interpFraction, max_def, min_def]⟩⟩
  · intro h0 hlt
    have hss : searchsorted ts t = 0 := by
      cases ts with
      | nil => rfl
      | cons a rest =>
        exact searchsorted_eq_zero_of_lt_head a rest t (by simpa using hlt)
    unfold t0_index t1_index
    rw [hss]
    constructor
    · simp
    · push_cast
      omega
  · intro hlast
    have hall : ∀ x ∈ ts, x < t := fun x hx =>
      lt_of_le_of_lt (le_getLast_of_sorted ts hsorted hne x hx) hlast
    have hss : searchsorted ts t = ts.length :=
      searchsorted_eq_length ts t hall
    unfold t0_index t1_index
    rw [hss]
    constructor
    · omega
    · omega

/-- C5 witness: the bracketing-search theorem instantiated on the sorted
series `[0, 10, 20]` at query time `25`. -/
theorem bracketing_search_witness :
    (t0_index [0, 10, 20] 25 = max 0 ((searchsorted [0, 10, 20] 25 : ℤ) - 1) ∧
     t1_index [0, 10, 20] 25 =
       min (((List.length [0, 10, 20] : ℕ) : ℤ) - 1) (searchsorted [0, 10, 20] 25)) ∧
    (∀ h0 : 0 < List.length [0, 10, 20], (25 : ℚ) < List.get [0, 10, 20] ⟨0, h0⟩ →
       t0_index [0, 10, 20] 25 = 0 ∧ t1_index [0, 10, 20] 25 = 0) ∧
    (List.getLast [0, 10, 20] (by decide) < (25 : ℚ) →
       t0_index [0, 10, 20] 25 = ((List.length [0, 10, 20] : ℕ) : ℤ) - 1 ∧
       t1_index [0, 10, 20] 25 = ((List.length [0, 10, 20] : ℕ) : ℤ) - 1) ∧
    (windBracket [0, 10, 20] 5 = (0, 10) ∧ windFraction [0, 10, 20] 5 = 1 / 2) ∧
    (windBracket [0, 10, 20] (-5) = (0, 0) ∧ windFraction [0, 10, 20] (-5) = 0) :=
  bracketing_search [0, 10, 20] 25 (by decide) (by decide)

/-- C9: `copyState` demands the same concrete simulator variant and the
same `(ny, nx)` grid dimensions, failing fast with an error (and, being
checked before any buffer write, leaving both states untouched) when
either differs; on success it copies all six conserved-field buffers and
the shared wind-stress reference from the other simulator, so the two
downloaded (current-set) fields of the two simulators coincide. -/
theorem copyState_correct {V W : Type} (self other : CopySim V W) :
    ((other.variantTag ≠ self.variantTag ∨
        (self.ny, self.nx) ≠ (other.ny, other.nx)) →
      ∃ msg, copyState self other = Except.error msg) ∧
    (other.variantTag = self.variantTag →
      (self.ny, self.nx) = (other.ny, other.nx) →
      ∃ r, copyState self other = Except.ok r ∧
        download r = download other ∧
        r.h0 = other.h0 ∧ r.hu0 = other.hu0 ∧ r.hv0 = other.hv0 ∧
        r.h1 = other.h1 ∧ r.hu1 = other.hu1 ∧ r.hv1 = other.hv1 ∧
        r.wind_stress = other.wind_stress ∧
        r.variantTag = self.variantTag ∧ r.nx = self.nx ∧ r.ny = self.ny) := by
  constructor
  · intro hmis
    unfold copyState
    rcases hmis with hv | hd
    · exact ⟨_, by rw [if_pos hv]⟩
    · by_cases hv : other.variantTag ≠ self.variantTag
      · exact ⟨_, by rw [if_pos hv]⟩
      · exact ⟨_, by rw [if_neg hv, if_pos hd]⟩
  · intro hv hd
    refine ⟨{ self with
        h0 := other.h0, hu0 := other.hu0, hv0 := other.hv0,
        h1 := other.h1, hu1 := other.hu1, hv1 := other.hv1,
        wind_stress := other.wind_stress },
      ?_, rfl, rfl, rfl, rfl, rfl, rfl, rfl, rfl, rfl, rfl, rfl⟩
    unfold copyState
    rw [if_neg (by simp [hv]), if_neg (by simp [hd])]

/-- C9 witness: the `copyState` contract instantiated at two concrete
simulators over `ℕ`-valued buffers with matching variant and dimensions. -/
theorem copyState_correct_witness :
    ((CopySim.variantTag ⟨0, 4, 3, 9, 9, 9, 9, 9, 9, 9⟩ ≠
        CopySim.variantTag (⟨0, 4, 3, 1, 2, 3, 4, 5, 6, 7⟩ : CopySim ℕ ℕ) ∨
      ((⟨0, 4, 3, 1, 2, 3, 4, 5, 6, 7⟩ : CopySim ℕ ℕ).ny,
       (⟨0, 4, 3, 1, 2, 3, 4, 5, 6, 7⟩ : CopySim ℕ ℕ).nx) ≠
      (CopySim.ny ⟨0, 4, 3, 9, 9, 9, 9, 9, 9, 9⟩,
       CopySim.nx ⟨0, 4, 3, 9, 9, 9, 9, 9, 9, 9⟩)) →
      ∃ msg, copyState (⟨0, 4, 3, 1, 2, 3, 4, 5, 6, 7⟩ : CopySim ℕ ℕ)
        ⟨0, 4, 3, 9, 9, 9, 9, 9, 9, 9⟩ = Except.error msg) ∧
    (CopySim.variantTag ⟨0, 4, 3, 9, 9, 9, 9, 9, 9, 9⟩ =
        CopySim.variantTag (⟨0, 4, 3, 1, 2, 3, 4, 5, 6, 7⟩ : CopySim ℕ ℕ) →
      ((⟨0, 4, 3, 1, 2, 3, 4, 5, 6, 7⟩ : CopySim ℕ ℕ).ny,
       (⟨0, 4, 3, 1, 2, 3, 4, 5, 6, 7⟩ : CopySim ℕ ℕ).nx) =
      (CopySim.ny ⟨0, 4, 3, 9, 9, 9, 9, 9, 9, 9⟩,
       CopySim.nx ⟨0, 4, 3, 9, 9, 9, 9, 9, 9, 9⟩) →
      ∃ r, copyState (⟨0, 4, 3, 1, 2, 3, 4, 5, 6, 7⟩ : CopySim ℕ ℕ)
          ⟨0, 4, 3, 9, 9, 9, 9, 9, 9, 9⟩ = Except.ok r ∧
        download r = download (⟨0, 4, 3, 9, 9, 9, 9, 9, 9, 9⟩ : CopySim ℕ ℕ) ∧
        r.h0 = 9 ∧ r.hu0 = 9 ∧ r.hv0 = 9 ∧
        r.h1 = 9 ∧ r.hu1 = 9 ∧ r.hv1 = 9 ∧
        r.wind_stress = 9 ∧
        r.variantTag = 0 ∧ r.nx = 4 ∧ r.ny = 3) :=
  copyState_correct (⟨0, 4, 3, 1, 2, 3, 4, 5, 6, 7⟩ : CopySim ℕ ℕ)
    ⟨0, 4, 3, 9, 9, 9, 9, 9, 9, 9⟩

/-- C2: for `dt > 0` and `t_end ≥ 0`, `step` never moves the clock
backwards, advances it by at most `t_end + dt`, and the candidate
sub-step count is `⌊t_end / dt⌋ + 1`. -/
theorem step_time_bounds {V : Type} (u : Bool) (km : KernelModel V)
    (ts : List ℚ) (dt t_end : ℚ) (s : SimState V)
    (hdt : 0 < dt) (hte : 0 ≤ t_end) :
    s.t ≤ (step u km ts dt t_end s).1.t ∧
    (step u km ts dt t_end s).1.t - s.t ≤ t_end + dt ∧
    nSubsteps dt t_end = ⌊t_end / dt⌋ + 1 := by
  rw [step_eq]
  dsimp only
  have hmono := stepLoop_t_mono u km ts dt t_end
    (nSubsteps dt t_end).toNat 0 (initState km s)
  have hub := stepLoop_t_upper u km ts dt t_end hdt
    (nSubsteps dt t_end).toNat 0 (initState km s)
  rw [initState_t] at hmono hub
  have h0 : ((0 : ℕ) : ℚ) * dt = 0 := by norm_num
  rw [h0, sub_zero, max_eq_right hte] at hub
  refine ⟨hmono, by linarith, ?_⟩
  have hq : 0 ≤ t_end / dt := div_nonneg hte hdt.le
  unfold nSubsteps pyInt
  rw [if_pos (by linarith)]
  exact Int.floor_add_one (t_end / dt)

/-- C2 witness: the time bounds instantiated at `dt = 1`,
`t_end = 5/2`, initial clock `5`. -/
theorem step_time_bounds_witness :
    (5 : ℚ) ≤ (step false natKM [0] 1 (5 / 2) ⟨5, 0, 7, 8, none⟩).1.t ∧
    (step false natKM [0] 1 (5 / 2) ⟨5, 0, 7, 8, none⟩).1.t - 5 ≤ 5 / 2 + 1 ∧
    nSubsteps 1 (5 / 2) = ⌊(5 / 2 : ℚ) / 1⌋ + 1 :=
  step_time_bounds false natKM [0] 1 (5 / 2) ⟨5, 0, 7, 8, none⟩
    (by norm_num) (by norm_num)

/-- C3 counterexample: a first call after construction with a nonzero
resume time (`t = 5`, as `fromfilename` produces) launches a compute
kernel with no prior boundary-condition pass: the guard in the code is
`t == 0`, not "clock equals its initial value". -/
theorem initial_bc_counterexample :
    (5 : ℚ) ≠ 0 ∧
    bcBeforeKernel (step false natKM [0] 1 1 ⟨5, 3, 7, 8, none⟩).2 = false ∧
    Op.kernelLaunch 0 0 1 ∈ (step false natKM [0] 1 1 ⟨5, 3, 7, 8, none⟩).2 := by
  have ht5 : ¬ ((⟨5, 3, 7, 8, none⟩ : SimState ℕ).t = 0) := by decide
  have hinit : initState natKM ⟨5, 3, 7, 8, none⟩ =
      (⟨5, 3, 7, 8, none⟩ : SimState ℕ) := by
    unfold initState
    rw [if_neg ht5]
  have hn : (nSubsteps 1 1).toNat = 2 := by
    have h2 : nSubsteps 1 1 = 2 := by
      unfold nSubsteps pyInt
      rw [show (1 : ℚ) / 1 + 1 = ((2 : ℤ) : ℚ) by norm_num,
        if_pos (by norm_num : (0 : ℚ) ≤ ((2 : ℤ) : ℚ)), Int.floor_intCast]
    rw [h2]
    rfl
  refine ⟨by norm_num, ?_, ?_⟩
  · rw [step_eq]
    dsimp only
    rw [if_neg ht5, List.nil_append, bcBeforeKernel_stepLoop]
  · rw [step_eq]
    dsimp only
    rw [if_neg ht5, List.nil_append, hn, hinit]
    have hpos : ¬ min (1 : ℚ) (1 - ((0 : ℕ) : ℚ) * 1) ≤ 0 := by
      rw [show (1 : ℚ) - ((0 : ℕ) : ℚ) * 1 = 1 by norm_num, min_self]
      norm_num
    rw [stepLoop_succ_go false natKM [0] 1 1 1 0 _ hpos]
    dsimp only
    exact List.mem_append_left _ (kernel_mem_stepOnce _ _ _ _ _)

/-- C3 amended: the one-time initial boundary-condition pass (a
boundary-condition application preceding any compute-kernel launch)
occurs on a call to `step` exactly when the simulation clock equals `0`
at that call — not when the clock equals the construction-time initial
value: a resume from a persisted record with nonzero time gets no such
pass, while any call that still sees clock `0` (even a repeated one)
gets it. -/
theorem initial_bc_iff_time_zero {V : Type} (u : Bool) (km : KernelModel V)
    (ts : List ℚ) (dt t_end : ℚ) (s : SimState V) :
    bcBeforeKernel (step u km ts dt t_end s).2 = true ↔ s.t = 0 := by
  rw [step_eq]
  dsimp only
  by_cases h : s.t = 0
  · rw [if_pos h]
    exact ⟨fun _ => h, fun _ => rfl⟩
  · rw [if_neg h, List.nil_append, bcBeforeKernel_stepLoop]
    simp [h]

/-- C3 amended witness: at clock `5` (nonzero), no boundary-condition
pass precedes the first kernel launch. -/
theorem initial_bc_iff_time_zero_witness :
    bcBeforeKernel (step false natKM [0] 1 1 ⟨5, 3, 7, 8, none⟩).2 = true ↔
      (5 : ℚ) = 0 :=
  initial_bc_iff_time_zero false natKM [0] 1 1 ⟨5, 3, 7, 8, none⟩

/-- C6 counterexample: two consecutive refresh calls with warmed cache
`(0, 10)` at times `3` and `7` — both inside the bracket `(0, 10)` of the
series `[0, 10]` — issue no upload, but return the different fractions
`3/10` and `7/10`: "same bracket" does not imply "same fraction". -/
theorem reload_suppression_counterexample :
    (update_wind_stress (V := ℕ) [0, 10] ⟨3, 0, 0, 0, some (0, 10)⟩).2.2 = [] ∧
    (update_wind_stress (V := ℕ) [0, 10] ⟨7, 0, 0, 0, some (0, 10)⟩).2.2 = [] ∧
    windBracket [0, 10] 3 = windBracket [0, 10] 7 ∧
    (update_wind_stress (V := ℕ) [0, 10] ⟨3, 0, 0, 0, some (0, 10)⟩).1 = 3 / 10 ∧
    (update_wind_stress (V := ℕ) [0, 10] ⟨7, 0, 0, 0, some (0, 10)⟩).1 = 7 / 10 ∧
    (3 : ℚ) / 10 ≠ 7 / 10 := by
  have hb3 : windBracket [0, 10] 3 = (0, 10) := by decide
  have hb7 : windBracket [0, 10] 7 = (0, 10) := by decide
  refine ⟨by decide, by decide, by decide, ?_, ?_, by norm_num⟩
  · rw [update_wind_stress_frac]
    unfold windFraction
    rw [show ((⟨3, 0, 0, 0, some (0, 10)⟩ : SimState ℕ) : SimState ℕ).t = 3 from rfl, hb3]
    norm_num [interpFraction, max_def, min_def]
  · rw [update_wind_stress_frac]
    unfold windFraction
    rw [show ((⟨7, 0, 0, 0, some (0, 10)⟩ : SimState ℕ) : SimState ℕ).t = 7 from rfl, hb7]
    norm_num [interpFraction, max_def, min_def]

/-- C6 amended: a forcing snapshot buffer ("current" resp. "next") is
uploaded by a refresh exactly when the bracketing timestamp of that endpoint
differs from the cached one (a missing cache entry counting as
different); after a refresh the cache holds the current bracket, so a
subsequent refresh at any time with the same bracket issues no upload;
and the returned fraction is a function of the series and the query time
alone (hence equal fractions for repeated queries at the same time). -/
theorem reload_suppression {V : Type} (ts : List ℚ) (s : SimState V) :
    (Op.uploadCurrent ∈ (update_wind_stress ts s).2.2 ↔
      s.windCache.map Prod.fst ≠ some (windBracket ts s.t).1) ∧
    (Op.uploadNext ∈ (update_wind_stress ts s).2.2 ↔
      s.windCache.map Prod.snd ≠ some (windBracket ts s.t).2) ∧
    (update_wind_stress ts s).2.1.windCache = some (windBracket ts s.t) ∧
    (update_wind_stress ts s).1 = windFraction ts s.t ∧
    (∀ t' : ℚ, windBracket ts t' = windBracket ts s.t →
      (update_wind_stress ts
        { (update_wind_stress ts s).2.1 with t := t' }).2.2 = [] ∧
      (update_wind_stress ts
        { (update_wind_stress ts s).2.1 with t := t' }).1 = windFraction ts t') := by
  refine ⟨?_, ?_, rfl, rfl, ?_⟩
  · rw [update_wind_stress_ops]
    by_cases h1 : some (windBracket ts s.t).1 = s.windCache.map Prod.fst <;>
      by_cases h2 : some (windBracket ts s.t).2 = s.windCache.map Prod.snd <;>
        simp [h1, h2, eq_comm]
  · rw [update_wind_stress_ops]
    by_cases h1 : some (windBracket ts s.t).1 = s.windCache.map Prod.fst <;>
      by_cases h2 : some (windBracket ts s.t).2 = s.windCache.map Prod.snd <;>
        simp [h1, h2, eq_comm]
  · intro t' hbr
    have hcache : ({ (update_wind_stress ts s).2.1 with t := t' } :
        SimState V).windCache = some (windBracket ts s.t) := rfl
    have htt : ({ (update_wind_stress ts s).2.1 with t := t' } :
        SimState V).t = t' := rfl
    constructor
    · rw [update_wind_stress_ops, htt, hcache, hbr]
      rw [if_neg (by simp), if_neg (by simp)]
      rfl
    · rw [update_wind_stress_frac, htt]

/-- C6 amended witness: the reload-suppression contract instantiated on
the series `[0, 10]` with a cold cache at time `3`. -/
theorem reload_suppression_witness :
    (Op.uploadCurrent ∈
        (update_wind_stress (V := ℕ) [0, 10] ⟨3, 0, 0, 0, none⟩).2.2 ↔
      Option.map Prod.fst (none : Option (ℚ × ℚ)) ≠
        some (windBracket [0, 10] 3).1) ∧
    (Op.uploadNext ∈
        (update_wind_stress (V := ℕ) [0, 10] ⟨3, 0, 0, 0, none⟩).2.2 ↔
      Option.map Prod.snd (none : Option (ℚ × ℚ)) ≠
        some (windBracket [0, 10] 3).2) ∧
    (update_wind_stress (V := ℕ) [0, 10] ⟨3, 0, 0, 0, none⟩).2.1.windCache =
      some (windBracket [0, 10] 3) ∧
    (update_wind_stress (V := ℕ) [0, 10] ⟨3, 0, 0, 0, none⟩).1 =
      windFraction [0, 10] 3 ∧
    (∀ t' : ℚ, windBracket [0, 10] t' = windBracket [0, 10] 3 →
      (update_wind_stress [0, 10]
        { (update_wind_stress (V := ℕ) [0, 10] ⟨3, 0, 0, 0, none⟩).2.1 with
            t := t' }).2.2 = [] ∧
      (update_wind_stress [0, 10]
        { (update_wind_stress (V := ℕ) [0, 10] ⟨3, 0, 0, 0, none⟩).2.1 with
            t := t' }).1 = windFraction [0, 10] t') :=
  reload_suppression [0, 10] ⟨3, 0, 0, 0, none⟩

/-- C7: a call to `step` increments the iteration counter by exactly the
number of loop iterations whose `local_dt = min(dt, t_end - i*dt)` is
strictly positive before the early-termination break. -/
theorem step_iteration_count {V : Type} (u : Bool) (km : KernelModel V)
    (ts : List ℚ) (dt t_end : ℚ) (s : SimState V) :
    (step u km ts dt t_end s).1.num_iterations =
      s.num_iterations + executedCount dt t_end (nSubsteps dt t_end).toNat 0 := by
  rw [step_eq]
  dsimp only
  rw [stepLoop_num_iterations, initState_num_iterations]

/-- C7 witness: with `dt = 1` and `t_end = 2` the counter advances by
the number of strictly positive sub-steps. -/
theorem step_iteration_count_witness :
    (step false natKM [0] 1 2 ⟨5, 3, 7, 8, none⟩).1.num_iterations =
      3 + executedCount 1 2 (nSubsteps 1 2).toNat 0 :=
  step_iteration_count false natKM [0] 1 2 ⟨5, 3, 7, 8, none⟩

/-- C8 counterexample: at clock `0` with `t_end = 0` the call is not a
no-op — the one-time initial boundary-condition kernel still runs and
mutates buffer set 0 (`7 ↦ 1007` under the concrete model). -/
theorem zero_elapsed_counterexample :
    (step false natKM [0] 1 0 ⟨0, 0, 7, 8, none⟩).1.set0 = 1007 ∧
    (1007 : ℕ) ≠ 7 ∧
    Op.bcApply 0 ∈ (step false natKM [0] 1 0 ⟨0, 0, 7, 8, none⟩).2 := by
  have ht0 : ((⟨0, 0, 7, 8, none⟩ : SimState ℕ).t = 0) := rfl
  have hinit : initState natKM ⟨0, 0, 7, 8, none⟩ =
      (⟨0, 0, 1007, 8, none⟩ : SimState ℕ) := by
    unfold initState
    rw [if_pos ht0]
    rfl
  have hn : (nSubsteps 1 0).toNat = 1 := by
    have h1 : nSubsteps 1 0 = 1 := by
      unfold nSubsteps pyInt
      rw [show (0 : ℚ) / 1 + 1 = ((1 : ℤ) : ℚ) by norm_num,
        if_pos (by norm_num : (0 : ℚ) ≤ ((1 : ℤ) : ℚ)), Int.floor_intCast]
    rw [h1]
    rfl
  have hmin : min (1 : ℚ) (0 - ((0 : ℕ) : ℚ) * 1) ≤ 0 := by
    rw [show (0 : ℚ) - ((0 : ℕ) : ℚ) * 1 = 0 by norm_num]
    exact min_le_right _ _
  refine ⟨?_, by norm_num, ?_⟩
  · rw [step_eq]
    dsimp only
    rw [hn, hinit, stepLoop_succ_break false natKM [0] 1 0 0 0 _ hmin]
    rfl
  · rw [step_eq]
    dsimp only
    rw [if_pos ht0]
    exact List.mem_append_left _ (List.mem_singleton.mpr rfl)

/-- C8 amended: with `dt > 0` and `t_end ≤ 0`, `step` leaves the clock
and the iteration counter unchanged and launches no compute kernel; if
moreover the clock is nonzero, both buffer sets are unchanged and the
only possible device operations are forcing-snapshot uploads from the
(pre-break) wind-stress refresh — but when the clock equals `0` the
one-time initial boundary-condition pass still runs on buffer set 0. -/
theorem zero_elapsed_no_compute {V : Type} (u : Bool) (km : KernelModel V)
    (ts : List ℚ) (dt t_end : ℚ) (s : SimState V)
    (hdt : 0 < dt) (hte : t_end ≤ 0) :
    (step u km ts dt t_end s).1.t = s.t ∧
    (step u km ts dt t_end s).1.num_iterations = s.num_iterations ∧
    (∀ a b c, Op.kernelLaunch a b c ∉ (step u km ts dt t_end s).2) ∧
    (s.t ≠ 0 →
      (step u km ts dt t_end s).1.set0 = s.set0 ∧
      (step u km ts dt t_end s).1.set1 = s.set1 ∧
      ∀ op ∈ (step u km ts dt t_end s).2,
        op = Op.uploadCurrent ∨ op = Op.uploadNext) := by
  have hfuel := nSubsteps_toNat_le_one dt t_end hdt hte
  have hmin : min dt (t_end - (0 : ℚ) * dt) ≤ 0 := by
    rw [zero_mul, sub_zero]
    exact le_trans (min_le_right _ _) hte
  obtain ⟨ht, hit, hs0, hs1, hops⟩ := stepLoop_buffers_of_break u km ts dt t_end
    (nSubsteps dt t_end).toNat (initState km s) hmin hfuel
  rw [step_eq]
  dsimp only
  refine ⟨by rw [ht, initState_t], by rw [hit, initState_num_iterations],
    ?_, ?_⟩
  · intro a b c hmem
    rcases List.mem_append.mp hmem with hm | hm
    · split_ifs at hm <;> simp_all
    · rcases hops _ hm with h1 | h1 <;> simp_all
  · intro hne
    have hinit : initState km s = s := by
      unfold initState
      rw [if_neg hne]
    rw [hinit] at hs0 hs1 hops ⊢
    refine ⟨hs0, hs1, ?_⟩
    intro op hop
    rcases List.mem_append.mp hop with hm | hm
    · rw [if_neg hne] at hm
      simp at hm
    · exact hops _ hm

/-- C8 amended witness: at `dt = 1`, `t_end = 0`, clock `5`. -/
theorem zero_elapsed_no_compute_witness :
    (step false natKM [0] 1 0 ⟨5, 3, 7, 8, none⟩).1.t = 5 ∧
    (step false natKM [0] 1 0 ⟨5, 3, 7, 8, none⟩).1.num_iterations = 3 ∧
    (∀ a b c, Op.kernelLaunch a b c ∉
      (step false natKM [0] 1 0 ⟨5, 3, 7, 8, none⟩).2) ∧
    ((5 : ℚ) ≠ 0 →
      (step false natKM [0] 1 0 ⟨5, 3, 7, 8, none⟩).1.set0 = 7 ∧
      (step false natKM [0] 1 0 ⟨5, 3, 7, 8, none⟩).1.set1 = 8 ∧
      ∀ op ∈ (step false natKM [0] 1 0 ⟨5, 3, 7, 8, none⟩).2,
        op = Op.uploadCurrent ∨ op = Op.uploadNext) :=
  zero_elapsed_no_compute false natKM [0] 1 0 ⟨5, 3, 7, 8, none⟩
    (by norm_num) (by norm_num)

/-- C1 witness: the buffer-role discipline evaluated on the concrete
kernel model. -/
theorem substep_buffer_role_discipline_witness :
    (substep false natKM 1 0 ⟨5, 0, 7, 8, none⟩).2 =
      [Op.kernelLaunch 0 0 1, Op.swapBuffers, Op.bcApply 0] ∧
    (substep true natKM 1 0 ⟨5, 0, 7, 8, none⟩).2 =
      [Op.kernelLaunch 0 0 1, Op.bcApply 1, Op.kernelLaunch 1 1 0, Op.bcApply 0] ∧
    Op.swapBuffers ∉ (substep true natKM 1 0 ⟨5, 0, 7, 8, none⟩).2 ∧
    (substep false natKM 1 0 ⟨5, 0, 7, 8, none⟩).1.set0 =
      natKM.bc (natKM.eulerK 1 0 7) ∧
    (substep false natKM 1 0 ⟨5, 0, 7, 8, none⟩).1.set1 = 7 ∧
    (substep true natKM 1 0 ⟨5, 0, 7, 8, none⟩).1.set0 =
      natKM.bc (natKM.rkStage1 1 0 (natKM.bc (natKM.rkStage0 1 0 7)) 7) ∧
    (substep true natKM 1 0 ⟨5, 0, 7, 8, none⟩).1.set1 =
      natKM.bc (natKM.rkStage0 1 0 7) :=
  substep_buffer_role_discipline natKM 1 0 ⟨5, 0, 7, 8, none⟩

/-- C10: the elevation field uploaded at construction is
`max(eta0, -Hm)` cellwise, so it is `≥ -Hm` everywhere, the initial total
water depth `eta + Hm` is non-negative everywhere, any caller value below
`-Hm` is silently raised to `-Hm`, and values already `≥ -Hm` pass
through unchanged. -/
theorem initial_eta_clamped (eta0 Hm : ℕ → ℕ → ℚ) (i j : ℕ) :
    -(Hm i j) ≤ adjustEta eta0 Hm i j ∧
    0 ≤ adjustEta eta0 Hm i j + Hm i j ∧
    (eta0 i j < -(Hm i j) → adjustEta eta0 Hm i j = -(Hm i j)) ∧
    (-(Hm i j) ≤ eta0 i j → adjustEta eta0 Hm i j = eta0 i j) := by
  unfold adjustEta
  refine ⟨le_max_right _ _, ?_, fun h => max_eq_right h.le, fun h => max_eq_left h⟩
  have := le_max_right (eta0 i j) (-(Hm i j))
  linarith

/-- C10 witness: the clamping evaluated at a constant elevation `-5`
below the negated bathymetry `-2`. -/
theorem initial_eta_clamped_witness :
    -((2 : ℚ)) ≤ adjustEta (fun _ _ => -5) (fun _ _ => 2) 0 0 ∧
    0 ≤ adjustEta (fun _ _ => -5) (fun _ _ => 2) 0 0 + 2 ∧
    ((-5 : ℚ) < -(2 : ℚ) → adjustEta (fun _ _ => -5) (fun _ _ => 2) 0 0 = -2) ∧
    (-((2 : ℚ)) ≤ (-5 : ℚ) → adjustEta (fun _ _ => -5) (fun _ _ => 2) 0 0 = -5) :=
  initial_eta_clamped (fun _ _ => -5) (fun _ _ => 2) 0 0

end GpuOcean
